import Mathlib

/-!
Verification of the SSH message builder (`ssh_msgb.h` of the Surface
Aggregator serial-hub driver).

The builder constructs wire messages into a caller-supplied bounded byte
buffer.  We embed the buffer as a record of three offsets (`begin`, `endp`,
`ptr` — the C fields `begin`, `end`, `ptr`, seen as offsets into an ambient
byte memory) together with the ambient memory itself, modelled as a total
function `Nat → Nat` whose values are kept below 256 by every write.

The checksum primitive `ssh_crc` and the constants `SSH_MSG_SYN`,
`SSH_FRAME_TYPE_*`, `SSH_PLD_TYPE_CMD` and the packed structs `ssh_frame`
(4 bytes) and `ssh_command` (8 bytes) live in external headers; following
the specification they are treated as an external pure function
(parameterised throughout) and fixed constants / fixed layouts.
-/

/-- The message buffer struct (`struct msgbuf`): `begin`, `endp` (the C
field `end`, a Lean keyword) and `ptr` are offsets into the ambient byte
memory `mem`. -/
@[ext]
structure Msgbuf where
  begin : Nat
  endp : Nat
  ptr : Nat
  mem : Nat → Nat

/-- Store one byte (truncated to 8 bits, as the backing storage is `u8`)
at offset `i` of the ambient memory of the buffer. -/
def writeByte (m : Msgbuf) (i v : Nat) : Msgbuf :=
  { m with mem := fun j => if j = i then v % 256 else m.mem j }

/-- `msgb_init`: bind the buffer to caller storage starting at offset
`base` with capacity `cap`, over ambient memory `p`. -/
def msgb_init (p : Nat → Nat) (base cap : Nat) : Msgbuf :=
  { begin := base, endp := base + cap, ptr := base, mem := p }

/-- `msgb_bytes_used`: `msgb->ptr - msgb->begin`. -/
def msgb_bytes_used (m : Msgbuf) : Nat :=
  m.ptr - m.begin

/-- `msgb_push_u16`: bounds-checked little-endian 16-bit append.
If `ptr + 2 > end` the call is a no-op (`WARN_ON` only emits a
diagnostic); otherwise the low byte goes to `ptr`, the high byte to
`ptr + 1`, and `ptr` advances by 2. -/
def msgb_push_u16 (m : Msgbuf) (value : Nat) : Msgbuf :=
  if m.ptr + 2 > m.endp then m
  else
    { writeByte (writeByte m m.ptr (value % 256)) (m.ptr + 1) (value / 256 % 256) with
      ptr := m.ptr + 2 }

/-- Modelled from the spec: `SSH_MSG_SYN` is an external fixed 2-byte
constant (the test stand-in value of the spec, `0xAAAA` is used; no claim
depends on the numeric value). -/
def SSH_MSG_SYN : Nat := 0xAAAA

/-- `msgb_push_syn`: push the SYN constant via `msgb_push_u16`. -/
def msgb_push_syn (m : Msgbuf) : Msgbuf :=
  msgb_push_u16 m SSH_MSG_SYN

/-- `msgb_push_buf`: `memcpy` of the given bytes to `ptr` followed by
`ptr += len`.  There is no capacity check.  The C source pointer and
length are modelled as a single list of bytes. -/
def msgb_push_buf : Msgbuf → List Nat → Msgbuf
  | m, [] => m
  | m, b :: rest => msgb_push_buf { writeByte m m.ptr b with ptr := m.ptr + 1 } rest

/-- Read `len` bytes of ambient memory starting at offset `off`. -/
def readBytes : (Nat → Nat) → Nat → Nat → List Nat
  | _, _, 0 => []
  | mem, off, len + 1 => mem off :: readBytes mem (off + 1) len

/-- `msgb_push_crc`: compute the external checksum over the byte range
`[off, off + len)` of the own memory of the buffer and append it via
`msgb_push_u16`.  The checksum function `crc` (the external `ssh_crc`)
is a parameter. -/
def msgb_push_crc (crc : List Nat → Nat) (m : Msgbuf) (off len : Nat) : Msgbuf :=
  msgb_push_u16 m (crc (readBytes m.mem off len))

/-- Modelled from the spec: frame type constants for acknowledgement,
negative acknowledgement and sequenced data (spec §8 test values). -/
def SSH_FRAME_TYPE_ACK : Nat := 0x01

/-- Modelled from the spec: NAK frame type. -/
def SSH_FRAME_TYPE_NAK : Nat := 0x02

/-- Modelled from the spec: sequenced-data frame type. -/
def SSH_FRAME_TYPE_DATA_SEQ : Nat := 0x03

/-- Modelled from the spec: the command payload-type tag; its numeric
value is not given by the spec and no claim depends on it. -/
def SSH_PLD_TYPE_CMD : Nat := 0x80

/-- `msgb_push_frame`: if fewer than 4 bytes (`sizeof(struct ssh_frame)`,
packed `type : u8, len : __le16, seq : u8`) remain, abort as a no-op.
Otherwise write type, little-endian length, seq, advance `ptr` by 4 and
append the checksum over the 4 header bytes just written. -/
def msgb_push_frame (crc : List Nat → Nat) (m : Msgbuf) (ty len seq : Nat) : Msgbuf :=
  if m.ptr + 4 > m.endp then m
  else
    let m4 := writeByte (writeByte (writeByte (writeByte m
                m.ptr ty)
                (m.ptr + 1) (len % 256))
                (m.ptr + 2) (len / 256 % 256))
                (m.ptr + 3) seq
    let m5 := { m4 with ptr := m.ptr + 4 }
    msgb_push_crc crc m5 m.ptr (m5.ptr - m.ptr)

/-- `msgb_push_ack`: SYN, ACK-type frame (length 0) with header checksum,
then the payload checksum over the empty range at the current cursor. -/
def msgb_push_ack (crc : List Nat → Nat) (m : Msgbuf) (seq : Nat) : Msgbuf :=
  let m1 := msgb_push_syn m
  let m2 := msgb_push_frame crc m1 SSH_FRAME_TYPE_ACK 0x00 seq
  msgb_push_crc crc m2 m2.ptr 0

/-- `msgb_push_nak`: SYN, NAK-type frame (length 0, seq 0) with header
checksum, then the payload checksum over the empty range. -/
def msgb_push_nak (crc : List Nat → Nat) (m : Msgbuf) : Msgbuf :=
  let m1 := msgb_push_syn m
  let m2 := msgb_push_frame crc m1 SSH_FRAME_TYPE_NAK 0x00 0x00
  msgb_push_crc crc m2 m2.ptr 0

/-- `struct ssam_request` as used by the encoder: target category, target
id, instance id, command id and the application payload.  The C fields
`payload` (pointer) and `length` are modelled as the single list
`payload`, whose length stands for `rqst->length`. -/
structure ssam_request where
  target_category : Nat
  target_id : Nat
  instance_id : Nat
  command_id : Nat
  payload : List Nat

/-- Modelled from the spec: `sizeof(struct ssh_command)` — the packed
command header (type, tc, tid_out, tid_in, iid, rqid ×2, cid) is 8
bytes. -/
def SSH_COMMAND_LEN : Nat := 8

/-- `msgb_push_cmd`: SYN, then a sequenced-data frame whose length field
is `sizeof(struct ssh_command) + rqst->length`; if fewer than 8 bytes
remain, abort leaving the frame in place; otherwise write the command
header fields in source order, append the payload unchecked via
`msgb_push_buf`, and append the checksum over command header plus
payload. -/
def msgb_push_cmd (crc : List Nat → Nat) (m : Msgbuf) (seq rqid : Nat)
    (rqst : ssam_request) : Msgbuf :=
  let m1 := msgb_push_syn m
  let m2 := msgb_push_frame crc m1 SSH_FRAME_TYPE_DATA_SEQ
              (SSH_COMMAND_LEN + rqst.payload.length) seq
  if m2.ptr + SSH_COMMAND_LEN > m2.endp then m2
  else
    let c0 := m2.ptr
    let m10 := writeByte (writeByte (writeByte (writeByte (writeByte (writeByte (writeByte
                 (writeByte m2
                 c0 SSH_PLD_TYPE_CMD)
                 (c0 + 1) rqst.target_category)
                 (c0 + 2) rqst.target_id)
                 (c0 + 3) 0x00)
                 (c0 + 4) rqst.instance_id)
                 (c0 + 5) (rqid % 256))
                 (c0 + 6) (rqid / 256 % 256))
                 (c0 + 7) rqst.command_id
    let m11 := { m10 with ptr := c0 + 8 }
    let m12 := msgb_push_buf m11 rqst.payload
    msgb_push_crc crc m12 c0 (m12.ptr - c0)

/-- A concrete stand-in checksum (spec §8: sum of bytes modulo 65536),
used only to instantiate witnesses; all theorems quantify over `crc`. -/
def crcSum (l : List Nat) : Nat :=
  (l.foldl (fun a b => a + b) 0) % 65536

/-- A concrete all-zero ambient memory for witnesses. -/
def memZero : Nat → Nat :=
  fun _ => 0

/-- Little-endian byte pair of a 16-bit value (as `put_unaligned_le16`
stores it: low byte first). -/
def le16 (v : Nat) : List Nat :=
  [v % 256, v / 256 % 256]

/-- Store a list of bytes sequentially starting at `off` (each byte
truncated to 8 bits, as `writeByte` does). -/
def setBytes : (Nat → Nat) → Nat → List Nat → (Nat → Nat)
  | mem, _, [] => mem
  | mem, off, b :: rest => setBytes (fun j => if j = off then b % 256 else mem j) (off + 1) rest

/-- The four header bytes `msgb_push_frame` stores: type, little-endian
length, sequence id. -/
def frameBytes (ty len seq : Nat) : List Nat :=
  [ty % 256, len % 256, len / 256 % 256, seq % 256]

/-- The full wire image of an ACK message. -/
def ackBytes (crc : List Nat → Nat) (seq : Nat) : List Nat :=
  le16 SSH_MSG_SYN
    ++ ((frameBytes SSH_FRAME_TYPE_ACK 0 seq
          ++ le16 (crc (frameBytes SSH_FRAME_TYPE_ACK 0 seq)))
    ++ le16 (crc []))

/-- The full wire image of a NAK message. -/
def nakBytes (crc : List Nat → Nat) : List Nat :=
  le16 SSH_MSG_SYN
    ++ ((frameBytes SSH_FRAME_TYPE_NAK 0 0
          ++ le16 (crc (frameBytes SSH_FRAME_TYPE_NAK 0 0)))
    ++ le16 (crc []))

/-- The frame-payload region of a command message (command header plus
application payload), as stored. -/
def cmdPayloadBytes (rqid : Nat) (r : ssam_request) : List Nat :=
  ([SSH_PLD_TYPE_CMD, r.target_category, r.target_id, 0, r.instance_id,
    rqid % 256, rqid / 256 % 256, r.command_id] ++ r.payload).map (fun b => b % 256)

/-- The full wire image of a sequenced-command message. -/
def cmdMsgBytes (crc : List Nat → Nat) (seq rqid : Nat) (r : ssam_request) : List Nat :=
  le16 SSH_MSG_SYN
    ++ ((frameBytes SSH_FRAME_TYPE_DATA_SEQ (SSH_COMMAND_LEN + r.payload.length) seq
          ++ le16 (crc (frameBytes SSH_FRAME_TYPE_DATA_SEQ (SSH_COMMAND_LEN + r.payload.length) seq)))
    ++ (cmdPayloadBytes rqid r
        ++ le16 (crc (cmdPayloadBytes rqid r))))


/-! ### Byte-range infrastructure -/

theorem setBytes_apply_lt (l : List Nat) (mem : Nat → Nat) (off j : Nat) (h : j < off) :
    setBytes mem off l j = mem j := by
  induction l generalizing mem off with
  | nil => rfl
  | cons b rest ih =>
      rw [setBytes, ih _ _ (by omega)]
      rw [if_neg (by omega)]

theorem setBytes_apply_ge (l : List Nat) (mem : Nat → Nat) (off j : Nat)
    (h : off + l.length ≤ j) : setBytes mem off l j = mem j := by
  induction l generalizing mem off with
  | nil => rfl
  | cons b rest ih =>
      simp only [List.length_cons] at h
      rw [setBytes, ih _ _ (by omega)]
      rw [if_neg (by omega)]

theorem setBytes_append (l1 l2 : List Nat) (mem : Nat → Nat) (off : Nat) :
    setBytes mem off (l1 ++ l2) = setBytes (setBytes mem off l1) (off + l1.length) l2 := by
  induction l1 generalizing mem off with
  | nil => simp [setBytes]
  | cons b rest ih =>
      have h : off + (rest.length + 1) = (off + 1) + rest.length := by omega
      rw [List.cons_append, setBytes, setBytes, ih, List.length_cons, h]

theorem readBytes_setBytes_exact (l : List Nat) (mem : Nat → Nat) (off : Nat) :
    readBytes (setBytes mem off l) off l.length = l.map (fun b => b % 256) := by
  induction l generalizing mem off with
  | nil => rfl
  | cons b rest ih =>
      rw [List.length_cons, List.map_cons, setBytes, readBytes, ih]
      rw [setBytes_apply_lt _ _ _ _ (by omega)]
      rw [if_pos rfl]

theorem readBytes_setBytes_lt (l : List Nat) (mem : Nat → Nat) (off a k : Nat)
    (h : a + k ≤ off) : readBytes (setBytes mem off l) a k = readBytes mem a k := by
  induction k generalizing a with
  | zero => rfl
  | succ n ih =>
      rw [readBytes, readBytes, setBytes_apply_lt _ _ _ _ (by omega), ih _ (by omega)]

theorem readBytes_length (mem : Nat → Nat) (off len : Nat) :
    (readBytes mem off len).length = len := by
  induction len generalizing off with
  | zero => rfl
  | succ n ih => rw [readBytes, List.length_cons, ih]

/-! ### Operation spec lemmas -/

theorem setBytes_map_mod (l : List Nat) (mem : Nat → Nat) (off : Nat) :
    setBytes mem off (l.map (fun b => b % 256)) = setBytes mem off l := by
  induction l generalizing mem off with
  | nil => rfl
  | cons b rest ih =>
      rw [List.map_cons, setBytes, setBytes, Nat.mod_mod, ih]

theorem msgb_push_u16_noop (m : Msgbuf) (v : Nat) (h : m.endp < m.ptr + 2) :
    msgb_push_u16 m v = m := by
  unfold msgb_push_u16
  rw [if_pos (by omega)]

theorem msgb_push_u16_spec (m : Msgbuf) (v : Nat) (h : m.ptr + 2 ≤ m.endp) :
    msgb_push_u16 m v =
      { m with ptr := m.ptr + 2, mem := setBytes m.mem m.ptr (le16 v) } := by
  unfold msgb_push_u16
  rw [if_neg (by omega)]
  rfl

theorem msgb_push_buf_spec (l : List Nat) (m : Msgbuf) :
    msgb_push_buf m l =
      { m with ptr := m.ptr + l.length, mem := setBytes m.mem m.ptr l } := by
  induction l generalizing m with
  | nil => rfl
  | cons b rest ih =>
      rw [msgb_push_buf, ih]
      exact Msgbuf.ext rfl rfl (by simp only [List.length_cons]; omega) rfl

theorem msgb_push_crc_spec (crc : List Nat → Nat) (m : Msgbuf) (off len : Nat)
    (h : m.ptr + 2 ≤ m.endp) :
    msgb_push_crc crc m off len =
      { m with ptr := m.ptr + 2,
               mem := setBytes m.mem m.ptr (le16 (crc (readBytes m.mem off len))) } := by
  unfold msgb_push_crc
  exact msgb_push_u16_spec m _ h

theorem frameBytes_eq_map (ty len seq : Nat) :
    frameBytes ty len seq = [ty, len % 256, len / 256 % 256, seq].map (fun b => b % 256) := by
  simp [frameBytes, Nat.mod_mod]

theorem msgb_push_frame_spec (crc : List Nat → Nat) (m : Msgbuf) (ty len seq : Nat)
    (h : m.ptr + 6 ≤ m.endp) :
    msgb_push_frame crc m ty len seq =
      { m with ptr := m.ptr + 6,
               mem := setBytes m.mem m.ptr
                 (frameBytes ty len seq ++ le16 (crc (frameBytes ty len seq))) } := by
  unfold msgb_push_frame
  rw [if_neg (by omega)]
  show msgb_push_crc crc
      { m with ptr := m.ptr + 4,
               mem := setBytes m.mem m.ptr [ty, len % 256, len / 256 % 256, seq] }
      m.ptr (m.ptr + 4 - m.ptr) = _
  rw [msgb_push_crc_spec _ _ _ _ (show m.ptr + 4 + 2 ≤ m.endp by omega)]
  dsimp only
  rw [Nat.add_sub_cancel_left]
  have e := readBytes_setBytes_exact [ty, len % 256, len / 256 % 256, seq] m.mem m.ptr
  simp only [List.length_cons, List.length_nil, Nat.zero_add] at e
  rw [e, frameBytes_eq_map, setBytes_append, setBytes_map_mod]
  simp only [List.length_map, List.length_cons, List.length_nil, Nat.zero_add]

theorem readBytes_zero (mem : Nat → Nat) (off : Nat) : readBytes mem off 0 = [] := rfl

theorem le16_length (v : Nat) : (le16 v).length = 2 := rfl

theorem frameBytes_length (ty len seq : Nat) : (frameBytes ty len seq).length = 4 := rfl

theorem msgb_push_ack_spec (crc : List Nat → Nat) (m : Msgbuf) (seq : Nat)
    (h : m.ptr + 10 ≤ m.endp) :
    msgb_push_ack crc m seq =
      { m with ptr := m.ptr + 10, mem := setBytes m.mem m.ptr (ackBytes crc seq) } := by
  unfold msgb_push_ack msgb_push_syn
  rw [msgb_push_u16_spec _ _ (by omega)]
  dsimp only
  rw [msgb_push_frame_spec _ _ _ _ _ (show m.ptr + 2 + 6 ≤ m.endp by omega)]
  rw [msgb_push_crc_spec _ _ _ _ (show m.ptr + 2 + 6 + 2 ≤ m.endp by omega)]
  dsimp only
  rw [readBytes_zero, ackBytes, setBytes_append, setBytes_append, setBytes_append,
    setBytes_append]
  rfl

theorem msgb_push_nak_spec (crc : List Nat → Nat) (m : Msgbuf)
    (h : m.ptr + 10 ≤ m.endp) :
    msgb_push_nak crc m =
      { m with ptr := m.ptr + 10, mem := setBytes m.mem m.ptr (nakBytes crc) } := by
  unfold msgb_push_nak msgb_push_syn
  rw [msgb_push_u16_spec _ _ (by omega)]
  dsimp only
  rw [msgb_push_frame_spec _ _ _ _ _ (show m.ptr + 2 + 6 ≤ m.endp by omega)]
  rw [msgb_push_crc_spec _ _ _ _ (show m.ptr + 2 + 6 + 2 ≤ m.endp by omega)]
  dsimp only
  rw [readBytes_zero, nakBytes, setBytes_append, setBytes_append, setBytes_append,
    setBytes_append]
  rfl

theorem msgb_push_frame_noop (crc : List Nat → Nat) (m : Msgbuf) (ty len seq : Nat)
    (h : m.endp < m.ptr + 4) :
    msgb_push_frame crc m ty len seq = m := by
  unfold msgb_push_frame
  rw [if_pos (by omega)]

set_option maxHeartbeats 1000000 in
/-- Collapsing the eight consecutive `writeByte`s of the command header
into one `setBytes`. -/
theorem writeChain8_eq (m : Msgbuf) (p a b c d e f g h : Nat) :
    writeByte (writeByte (writeByte (writeByte (writeByte (writeByte (writeByte (writeByte m
      p a) (p + 1) b) (p + 2) c) (p + 3) d) (p + 4) e) (p + 5) f) (p + 6) g) (p + 7) h
    = { m with mem := setBytes m.mem p [a, b, c, d, e, f, g, h] } := rfl

theorem readBytes_setBytes_len (l : List Nat) (mem : Nat → Nat) (off n : Nat)
    (h : l.length = n) :
    readBytes (setBytes mem off l) off n = l.map (fun b => b % 256) := by
  subst h
  exact readBytes_setBytes_exact l mem off

theorem readBytes_setBytes2 (l1 l2 : List Nat) (mem : Nat → Nat) (off p n : Nat)
    (hp : p = off + l1.length) (h : n = l1.length + l2.length) :
    readBytes (setBytes (setBytes mem off l1) p l2) off n
      = (l1 ++ l2).map (fun b => b % 256) := by
  subst hp
  subst h
  rw [← setBytes_append, ← List.length_append]
  exact readBytes_setBytes_exact (l1 ++ l2) mem off

theorem msgb_push_cmd_spec (crc : List Nat → Nat) (m : Msgbuf) (seq rqid : Nat)
    (r : ssam_request) (h : m.ptr + 18 + r.payload.length ≤ m.endp) :
    msgb_push_cmd crc m seq rqid r =
      { m with ptr := m.ptr + 18 + r.payload.length,
               mem := setBytes m.mem m.ptr (cmdMsgBytes crc seq rqid r) } := by
  unfold msgb_push_cmd msgb_push_syn
  rw [msgb_push_u16_spec _ _ (by omega)]
  dsimp only
  rw [msgb_push_frame_spec _ _ _ _ _ (show m.ptr + 2 + 6 ≤ m.endp by omega)]
  dsimp only
  rw [if_neg (show ¬(m.ptr + 2 + 6 + SSH_COMMAND_LEN > m.endp) from by
    simp only [SSH_COMMAND_LEN]; omega)]
  rw [writeChain8_eq]
  dsimp only
  rw [msgb_push_buf_spec]
  dsimp only
  rw [show m.ptr + 2 + 6 + 8 + r.payload.length - (m.ptr + 2 + 6) = 8 + r.payload.length
    from by omega]
  rw [msgb_push_crc_spec _ _ _ _
    (show m.ptr + 2 + 6 + 8 + r.payload.length + 2 ≤ m.endp by omega)]
  dsimp only
  rw [readBytes_setBytes2 _ _ _ _ _ _
    (show m.ptr + 2 + 6 + 8 = m.ptr + 2 + 6 +
      ([SSH_PLD_TYPE_CMD, r.target_category, r.target_id, 0, r.instance_id,
        rqid % 256, rqid / 256 % 256, r.command_id] : List Nat).length from by simp)
    (show 8 + r.payload.length =
      ([SSH_PLD_TYPE_CMD, r.target_category, r.target_id, 0, r.instance_id,
        rqid % 256, rqid / 256 % 256, r.command_id] : List Nat).length + r.payload.length
      from by simp)]
  conv_rhs => rw [cmdMsgBytes, cmdPayloadBytes, setBytes_append, setBytes_append,
    setBytes_append, setBytes_map_mod, setBytes_append]
  simp only [List.length_map, List.length_append, le16_length, frameBytes_length,
    List.length_cons, List.length_nil]
  rw [show (4 : Nat) + 2 = 6 from rfl,
    show (0 : Nat) + 1 + 1 + 1 + 1 + 1 + 1 + 1 + 1 = 8 from rfl,
    show m.ptr + 2 + 6 + (8 + r.payload.length) = m.ptr + 2 + 6 + 8 + r.payload.length
      from by omega,
    show m.ptr + 18 + r.payload.length = m.ptr + 2 + 6 + 8 + r.payload.length + 2
      from by omega]

/-! ### Range-extraction helpers -/

theorem le16_map_mod (v : Nat) : (le16 v).map (fun b => b % 256) = le16 v := by
  simp [le16, Nat.mod_mod]

theorem frameBytes_map_mod (ty len seq : Nat) :
    (frameBytes ty len seq).map (fun b => b % 256) = frameBytes ty len seq := by
  simp [frameBytes, Nat.mod_mod]

/-- Reading the suffix region `y` of a stored `x ++ y`. -/
theorem readBytes_setBytes_pre (x y : List Nat) (mem : Nat → Nat) (off a n : Nat)
    (ha : a = off + x.length) (hn : n = y.length) :
    readBytes (setBytes mem off (x ++ y)) a n = y.map (fun b => b % 256) := by
  subst ha
  subst hn
  rw [setBytes_append]
  exact readBytes_setBytes_exact y _ _

/-- Reading the middle region `y` of a stored `x ++ (y ++ z)`. -/
theorem readBytes_setBytes_mid (x y z : List Nat) (mem : Nat → Nat) (off a n : Nat)
    (ha : a = off + x.length) (hn : n = y.length) :
    readBytes (setBytes mem off (x ++ (y ++ z))) a n = y.map (fun b => b % 256) := by
  subst ha
  subst hn
  rw [setBytes_append, setBytes_append]
  rw [readBytes_setBytes_lt _ _ _ _ _ (by omega)]
  exact readBytes_setBytes_exact y _ _

/-! ### Invariant and locality lemmas -/

theorem msgb_push_u16_inv (m : Msgbuf) (v : Nat) (h1 : m.begin ≤ m.ptr)
    (h2 : m.ptr ≤ m.endp) :
    (msgb_push_u16 m v).begin ≤ (msgb_push_u16 m v).ptr ∧
      (msgb_push_u16 m v).ptr ≤ (msgb_push_u16 m v).endp := by
  unfold msgb_push_u16
  split
  · exact ⟨h1, h2⟩
  · next hc => exact ⟨by dsimp only [writeByte]; omega, by dsimp only [writeByte]; omega⟩

theorem msgb_push_u16_outside (m : Msgbuf) (v j : Nat) (h1 : m.begin ≤ m.ptr)
    (hj : j < m.begin ∨ m.endp ≤ j) :
    (msgb_push_u16 m v).mem j = m.mem j := by
  unfold msgb_push_u16
  split
  · rfl
  · next hc =>
      dsimp only [writeByte]
      rw [if_neg (by omega), if_neg (by omega)]

theorem msgb_push_u16_fields (m : Msgbuf) (v : Nat) :
    (msgb_push_u16 m v).begin = m.begin ∧ (msgb_push_u16 m v).endp = m.endp := by
  unfold msgb_push_u16
  split
  · exact ⟨rfl, rfl⟩
  · exact ⟨rfl, rfl⟩

theorem msgb_push_frame_fields (crc : List Nat → Nat) (m : Msgbuf) (ty len seq : Nat) :
    (msgb_push_frame crc m ty len seq).begin = m.begin ∧
      (msgb_push_frame crc m ty len seq).endp = m.endp := by
  unfold msgb_push_frame
  split
  · exact ⟨rfl, rfl⟩
  · dsimp only
    unfold msgb_push_crc
    exact ⟨(msgb_push_u16_fields _ _).1, (msgb_push_u16_fields _ _).2⟩

theorem msgb_push_frame_inv (crc : List Nat → Nat) (m : Msgbuf) (ty len seq : Nat)
    (h1 : m.begin ≤ m.ptr) (h2 : m.ptr ≤ m.endp) :
    (msgb_push_frame crc m ty len seq).begin ≤ (msgb_push_frame crc m ty len seq).ptr ∧
      (msgb_push_frame crc m ty len seq).ptr ≤ (msgb_push_frame crc m ty len seq).endp := by
  unfold msgb_push_frame
  split
  · exact ⟨h1, h2⟩
  · next hc =>
      dsimp only
      unfold msgb_push_crc
      exact msgb_push_u16_inv _ _ (by dsimp only [writeByte]; omega)
        (by dsimp only [writeByte]; omega)

theorem msgb_push_frame_outside (crc : List Nat → Nat) (m : Msgbuf) (ty len seq j : Nat)
    (h1 : m.begin ≤ m.ptr) (hj : j < m.begin ∨ m.endp ≤ j) :
    (msgb_push_frame crc m ty len seq).mem j = m.mem j := by
  unfold msgb_push_frame
  split
  · rfl
  · next hc =>
      dsimp only
      unfold msgb_push_crc
      rw [msgb_push_u16_outside _ _ _ (by dsimp only [writeByte]; omega) (by exact hj)]
      dsimp only [writeByte]
      rw [if_neg (by omega), if_neg (by omega), if_neg (by omega), if_neg (by omega)]

theorem msgb_push_crc_inv (crc : List Nat → Nat) (m : Msgbuf) (off len : Nat)
    (h1 : m.begin ≤ m.ptr) (h2 : m.ptr ≤ m.endp) :
    (msgb_push_crc crc m off len).begin ≤ (msgb_push_crc crc m off len).ptr ∧
      (msgb_push_crc crc m off len).ptr ≤ (msgb_push_crc crc m off len).endp := by
  unfold msgb_push_crc
  exact msgb_push_u16_inv _ _ h1 h2

theorem msgb_push_crc_outside (crc : List Nat → Nat) (m : Msgbuf) (off len j : Nat)
    (h1 : m.begin ≤ m.ptr) (hj : j < m.begin ∨ m.endp ≤ j) :
    (msgb_push_crc crc m off len).mem j = m.mem j := by
  unfold msgb_push_crc
  exact msgb_push_u16_outside _ _ _ h1 hj

theorem msgb_push_ack_inv (crc : List Nat → Nat) (m : Msgbuf) (seq : Nat)
    (h1 : m.begin ≤ m.ptr) (h2 : m.ptr ≤ m.endp) :
    (msgb_push_ack crc m seq).begin ≤ (msgb_push_ack crc m seq).ptr ∧
      (msgb_push_ack crc m seq).ptr ≤ (msgb_push_ack crc m seq).endp := by
  unfold msgb_push_ack
  dsimp only
  have i1 := msgb_push_u16_inv m SSH_MSG_SYN h1 h2
  have i2 := msgb_push_frame_inv crc (msgb_push_syn m) SSH_FRAME_TYPE_ACK 0 seq i1.1 i1.2
  exact msgb_push_crc_inv _ _ _ _ i2.1 i2.2

theorem msgb_push_ack_outside (crc : List Nat → Nat) (m : Msgbuf) (seq j : Nat)
    (h1 : m.begin ≤ m.ptr) (h2 : m.ptr ≤ m.endp) (hj : j < m.begin ∨ m.endp ≤ j) :
    (msgb_push_ack crc m seq).mem j = m.mem j := by
  unfold msgb_push_ack msgb_push_syn
  dsimp only
  have e1 := msgb_push_u16_fields m SSH_MSG_SYN
  have i1 := msgb_push_u16_inv m SSH_MSG_SYN h1 h2
  have e2 := msgb_push_frame_fields crc (msgb_push_u16 m SSH_MSG_SYN) SSH_FRAME_TYPE_ACK 0 seq
  have i2 := msgb_push_frame_inv crc (msgb_push_u16 m SSH_MSG_SYN) SSH_FRAME_TYPE_ACK 0 seq
    i1.1 i1.2
  rw [msgb_push_crc_outside _ _ _ _ _ i2.1 (by rw [e2.1, e2.2, e1.1, e1.2]; exact hj)]
  rw [msgb_push_frame_outside _ _ _ _ _ _ i1.1 (by rw [e1.1, e1.2]; exact hj)]
  exact msgb_push_u16_outside _ _ _ h1 hj

theorem msgb_push_nak_inv (crc : List Nat → Nat) (m : Msgbuf)
    (h1 : m.begin ≤ m.ptr) (h2 : m.ptr ≤ m.endp) :
    (msgb_push_nak crc m).begin ≤ (msgb_push_nak crc m).ptr ∧
      (msgb_push_nak crc m).ptr ≤ (msgb_push_nak crc m).endp := by
  unfold msgb_push_nak
  dsimp only
  have i1 := msgb_push_u16_inv m SSH_MSG_SYN h1 h2
  have i2 := msgb_push_frame_inv crc (msgb_push_syn m) SSH_FRAME_TYPE_NAK 0 0 i1.1 i1.2
  exact msgb_push_crc_inv _ _ _ _ i2.1 i2.2

theorem msgb_push_nak_outside (crc : List Nat → Nat) (m : Msgbuf) (j : Nat)
    (h1 : m.begin ≤ m.ptr) (h2 : m.ptr ≤ m.endp) (hj : j < m.begin ∨ m.endp ≤ j) :
    (msgb_push_nak crc m).mem j = m.mem j := by
  unfold msgb_push_nak msgb_push_syn
  dsimp only
  have e1 := msgb_push_u16_fields m SSH_MSG_SYN
  have i1 := msgb_push_u16_inv m SSH_MSG_SYN h1 h2
  have e2 := msgb_push_frame_fields crc (msgb_push_u16 m SSH_MSG_SYN) SSH_FRAME_TYPE_NAK 0 0
  have i2 := msgb_push_frame_inv crc (msgb_push_u16 m SSH_MSG_SYN) SSH_FRAME_TYPE_NAK 0 0
    i1.1 i1.2
  rw [msgb_push_crc_outside _ _ _ _ _ i2.1 (by rw [e2.1, e2.2, e1.1, e1.2]; exact hj)]
  rw [msgb_push_frame_outside _ _ _ _ _ _ i1.1 (by rw [e1.1, e1.2]; exact hj)]
  exact msgb_push_u16_outside _ _ _ h1 hj

theorem msgb_push_buf_inv (m : Msgbuf) (buf : List Nat) (h1 : m.begin ≤ m.ptr)
    (h2 : m.ptr + buf.length ≤ m.endp) :
    (msgb_push_buf m buf).begin ≤ (msgb_push_buf m buf).ptr ∧
      (msgb_push_buf m buf).ptr ≤ (msgb_push_buf m buf).endp := by
  rw [msgb_push_buf_spec]
  exact ⟨by dsimp only; omega, by dsimp only; omega⟩

theorem msgb_push_buf_outside (m : Msgbuf) (buf : List Nat) (j : Nat)
    (h1 : m.begin ≤ m.ptr) (h2 : m.ptr + buf.length ≤ m.endp)
    (hj : j < m.begin ∨ m.endp ≤ j) :
    (msgb_push_buf m buf).mem j = m.mem j := by
  rw [msgb_push_buf_spec]
  dsimp only
  cases hj with
  | inl h => exact setBytes_apply_lt _ _ _ _ (by omega)
  | inr h => exact setBytes_apply_ge _ _ _ _ (by omega)

theorem cmdMsgBytes_length (crc : List Nat → Nat) (seq rqid : Nat) (r : ssam_request) :
    (cmdMsgBytes crc seq rqid r).length = 18 + r.payload.length := by
  simp [cmdMsgBytes, cmdPayloadBytes, le16, frameBytes]
  omega

theorem msgb_push_cmd_inv (crc : List Nat → Nat) (m : Msgbuf) (seq rqid : Nat)
    (r : ssam_request) (h1 : m.begin ≤ m.ptr)
    (h2 : m.ptr + 18 + r.payload.length ≤ m.endp) :
    (msgb_push_cmd crc m seq rqid r).begin ≤ (msgb_push_cmd crc m seq rqid r).ptr ∧
      (msgb_push_cmd crc m seq rqid r).ptr ≤ (msgb_push_cmd crc m seq rqid r).endp := by
  rw [msgb_push_cmd_spec _ _ _ _ _ (by omega)]
  exact ⟨by dsimp only; omega, by dsimp only; omega⟩

theorem msgb_push_cmd_outside (crc : List Nat → Nat) (m : Msgbuf) (seq rqid : Nat)
    (r : ssam_request) (j : Nat) (h1 : m.begin ≤ m.ptr)
    (h2 : m.ptr + 18 + r.payload.length ≤ m.endp)
    (hj : j < m.begin ∨ m.endp ≤ j) :
    (msgb_push_cmd crc m seq rqid r).mem j = m.mem j := by
  rw [msgb_push_cmd_spec _ _ _ _ _ (by omega)]
  dsimp only
  cases hj with
  | inl h => exact setBytes_apply_lt _ _ _ _ (by omega)
  | inr h =>
      exact setBytes_apply_ge _ _ _ _ (by rw [cmdMsgBytes_length]; omega)

/-- Reading the leading region `y` of a stored `y ++ z`. -/
theorem readBytes_setBytes_first (y z : List Nat) (mem : Nat → Nat) (off n : Nat)
    (hn : n = y.length) :
    readBytes (setBytes mem off (y ++ z)) off n = y.map (fun b => b % 256) := by
  subst hn
  rw [setBytes_append]
  rw [readBytes_setBytes_lt _ _ _ _ _ (by omega)]
  exact readBytes_setBytes_exact y _ _

theorem cmdPayloadBytes_map_mod (rqid : Nat) (r : ssam_request) :
    (cmdPayloadBytes rqid r).map (fun b => b % 256) = cmdPayloadBytes rqid r := by
  simp [cmdPayloadBytes, List.map_map, Function.comp, Nat.mod_mod]

/-! ### Claims -/

/-- C1: for every message produced by `msgb_push_ack`, `msgb_push_nak` or
`msgb_push_cmd` on a freshly bound buffer of sufficient capacity,
`msgb_bytes_used` equals `2 + 4 + 2 + payload_length + 2`, where
`payload_length` is `0` for ACK/NAK and
`sizeof(struct ssh_command) + rqst->length` for a sequenced command. -/
theorem C1_message_total_length :
    (∀ (crc : List Nat → Nat) (p : Nat → Nat) (cap seq : Nat), 10 ≤ cap →
        msgb_bytes_used (msgb_push_ack crc (msgb_init p 0 cap) seq) = 2 + 4 + 2 + 0 + 2) ∧
    (∀ (crc : List Nat → Nat) (p : Nat → Nat) (cap : Nat), 10 ≤ cap →
        msgb_bytes_used (msgb_push_nak crc (msgb_init p 0 cap)) = 2 + 4 + 2 + 0 + 2) ∧
    (∀ (crc : List Nat → Nat) (p : Nat → Nat) (cap seq rqid : Nat) (r : ssam_request),
        2 + 4 + 2 + (SSH_COMMAND_LEN + r.payload.length) + 2 ≤ cap →
        msgb_bytes_used (msgb_push_cmd crc (msgb_init p 0 cap) seq rqid r)
          = 2 + 4 + 2 + (SSH_COMMAND_LEN + r.payload.length) + 2) := by
  refine ⟨?_, ?_, ?_⟩
  · intro crc p cap seq h
    rw [msgb_push_ack_spec _ _ _ (by show (0 : Nat) + 10 ≤ 0 + cap; omega)]
    simp [msgb_bytes_used, msgb_init]
  · intro crc p cap h
    rw [msgb_push_nak_spec _ _ (by show (0 : Nat) + 10 ≤ 0 + cap; omega)]
    simp [msgb_bytes_used, msgb_init]
  · intro crc p cap seq rqid r h
    have hc : SSH_COMMAND_LEN = 8 := rfl
    rw [msgb_push_cmd_spec _ _ _ _ _
      (by show (0 : Nat) + 18 + r.payload.length ≤ 0 + cap; omega)]
    simp [msgb_bytes_used, msgb_init, hc]
    omega

/-- C1 witness: concrete instances. -/
theorem C1_witness :
    msgb_bytes_used (msgb_push_ack crcSum (msgb_init memZero 0 16) 5) = 2 + 4 + 2 + 0 + 2 ∧
    msgb_bytes_used
        (msgb_push_cmd crcSum (msgb_init memZero 0 32) 1 7
          (ssam_request.mk 2 1 0 9 [222, 173]))
      = 2 + 4 + 2 + (SSH_COMMAND_LEN + 2) + 2 :=
  ⟨C1_message_total_length.1 crcSum memZero 16 5 (by norm_num),
    C1_message_total_length.2.2 crcSum memZero 32 1 7 (ssam_request.mk 2 1 0 9 [222, 173])
      (by norm_num [SSH_COMMAND_LEN])⟩

/-- C6: `msgb_push_u16` is a no-op (no byte changes, cursor unchanged)
when `cursor + 2 > limit`; otherwise it stores the value little-endian at
the cursor and advances the cursor by exactly 2. -/
theorem C6_append_u16_semantics :
    ∀ (m : Msgbuf) (v : Nat),
      (m.endp < m.ptr + 2 → msgb_push_u16 m v = m) ∧
      (m.ptr + 2 ≤ m.endp →
        msgb_push_u16 m v =
          { m with ptr := m.ptr + 2, mem := setBytes m.mem m.ptr (le16 v) }) :=
  fun m v => ⟨msgb_push_u16_noop m v, msgb_push_u16_spec m v⟩

/-- C6 witness: both branches at concrete inputs. -/
theorem C6_witness :
    msgb_push_u16 (msgb_init memZero 0 1) 48879 = msgb_init memZero 0 1 ∧
    msgb_push_u16 (msgb_init memZero 0 2) 48879 =
      { msgb_init memZero 0 2 with
          ptr := (msgb_init memZero 0 2).ptr + 2,
          mem := setBytes (msgb_init memZero 0 2).mem (msgb_init memZero 0 2).ptr
            (le16 48879) } :=
  ⟨(C6_append_u16_semantics (msgb_init memZero 0 1) 48879).1 (by decide),
    (C6_append_u16_semantics (msgb_init memZero 0 2) 48879).2 (by decide)⟩

/-- C7: with fewer than 4 bytes remaining `msgb_push_frame` aborts as a
complete no-op; in particular on a fresh 3-byte buffer it leaves the
buffer untouched and `msgb_bytes_used` at 0. -/
theorem C7_push_frame_undersized :
    (∀ (crc : List Nat → Nat) (m : Msgbuf) (ty len seq : Nat),
        m.endp < m.ptr + 4 → msgb_push_frame crc m ty len seq = m) ∧
    (∀ (crc : List Nat → Nat) (p : Nat → Nat),
        msgb_push_frame crc (msgb_init p 0 3) SSH_FRAME_TYPE_ACK 0 0 = msgb_init p 0 3 ∧
        msgb_bytes_used (msgb_push_frame crc (msgb_init p 0 3) SSH_FRAME_TYPE_ACK 0 0) = 0) := by
  refine ⟨fun crc m ty len seq => msgb_push_frame_noop crc m ty len seq, ?_⟩
  intro crc p
  have e := msgb_push_frame_noop crc (msgb_init p 0 3) SSH_FRAME_TYPE_ACK 0 0
    (by show (0 : Nat) + 3 < 0 + 4; omega)
  exact ⟨e, by rw [e]; rfl⟩

/-- C7 witness: concrete instance of the no-op branch. -/
theorem C7_witness :
    msgb_push_frame crcSum (msgb_init memZero 2 3) 1 0 9 = msgb_init memZero 2 3 :=
  C7_push_frame_undersized.1 crcSum (msgb_init memZero 2 3) 1 0 9 (by decide)

/-- C8: `msgb_push_buf` performs no capacity check: for every buffer
state and every byte list it stores the bytes at the cursor and advances
the cursor by the full length, even past `endp`. -/
theorem C8_append_bytes_unchecked :
    ∀ (m : Msgbuf) (buf : List Nat),
      msgb_push_buf m buf =
        { m with ptr := m.ptr + buf.length, mem := setBytes m.mem m.ptr buf } ∧
      (msgb_push_buf m buf).ptr = m.ptr + buf.length ∧
      readBytes (msgb_push_buf m buf).mem m.ptr buf.length =
        buf.map (fun b => b % 256) := by
  intro m buf
  refine ⟨msgb_push_buf_spec buf m, ?_, ?_⟩
  · rw [msgb_push_buf_spec]
  · rw [msgb_push_buf_spec]
    exact readBytes_setBytes_exact buf m.mem m.ptr

/-- C9: the ACK scenario `bind(buf, 16); push_ack(seq = 5)` produces
exactly SYN, the frame bytes `[ACK, 0, 0, 5]`, the header checksum and
the empty-range checksum, with 10 bytes used; `msgb_push_nak` produces
the identical shape with the NAK type and sequence number 0. -/
theorem C9_ack_nak_scenario :
    ∀ (crc : List Nat → Nat) (p : Nat → Nat),
      readBytes (msgb_push_ack crc (msgb_init p 0 16) 5).mem 0 10 =
        le16 SSH_MSG_SYN ++ ([SSH_FRAME_TYPE_ACK, 0x00, 0x00, 0x05] ++
          (le16 (crc [SSH_FRAME_TYPE_ACK, 0x00, 0x00, 0x05]) ++ le16 (crc []))) ∧
      msgb_bytes_used (msgb_push_ack crc (msgb_init p 0 16) 5) = 10 ∧
      readBytes (msgb_push_nak crc (msgb_init p 0 16)).mem 0 10 =
        le16 SSH_MSG_SYN ++ ([SSH_FRAME_TYPE_NAK, 0x00, 0x00, 0x00] ++
          (le16 (crc [SSH_FRAME_TYPE_NAK, 0x00, 0x00, 0x00]) ++ le16 (crc []))) ∧
      msgb_bytes_used (msgb_push_nak crc (msgb_init p 0 16)) = 10 := by
  intro crc p
  rw [msgb_push_ack_spec _ _ _ (by show (0 : Nat) + 10 ≤ 0 + 16; omega),
    msgb_push_nak_spec _ _ (by show (0 : Nat) + 10 ≤ 0 + 16; omega)]
  dsimp only [msgb_init]
  refine ⟨?_, by simp [msgb_bytes_used, msgb_init], ?_, by simp [msgb_bytes_used, msgb_init]⟩
  · rw [readBytes_setBytes_len _ _ _ _ (by rfl)]
    simp [ackBytes, frameBytes, le16, SSH_FRAME_TYPE_ACK, Nat.mod_mod]
  · rw [readBytes_setBytes_len _ _ _ _ (by rfl)]
    simp [nakBytes, frameBytes, le16, SSH_FRAME_TYPE_NAK, Nat.mod_mod]

/-- C3: in every produced message the last two bytes are the
little-endian checksum of the frame-payload bytes — the empty range for
ACK/NAK, and the command header together with the application payload
(one checksum over the whole region) for a sequenced command. -/
theorem C3_payload_checksum :
    (∀ (crc : List Nat → Nat) (p : Nat → Nat) (cap seq : Nat), 10 ≤ cap →
        readBytes (msgb_push_ack crc (msgb_init p 0 cap) seq).mem 8 2 = le16 (crc [])) ∧
    (∀ (crc : List Nat → Nat) (p : Nat → Nat) (cap : Nat), 10 ≤ cap →
        readBytes (msgb_push_nak crc (msgb_init p 0 cap)).mem 8 2 = le16 (crc [])) ∧
    (∀ (crc : List Nat → Nat) (p : Nat → Nat) (cap seq rqid : Nat) (r : ssam_request),
        18 + r.payload.length ≤ cap →
        readBytes (msgb_push_cmd crc (msgb_init p 0 cap) seq rqid r).mem 8
            (8 + r.payload.length) = cmdPayloadBytes rqid r ∧
        readBytes (msgb_push_cmd crc (msgb_init p 0 cap) seq rqid r).mem
            (16 + r.payload.length) 2 =
          le16 (crc (readBytes (msgb_push_cmd crc (msgb_init p 0 cap) seq rqid r).mem 8
            (8 + r.payload.length)))) := by
  refine ⟨?_, ?_, ?_⟩
  · intro crc p cap seq h
    rw [msgb_push_ack_spec _ _ _ (by show (0 : Nat) + 10 ≤ 0 + cap; omega)]
    dsimp only [msgb_init]
    rw [show ackBytes crc seq =
        (le16 SSH_MSG_SYN ++ (frameBytes SSH_FRAME_TYPE_ACK 0 seq ++
          le16 (crc (frameBytes SSH_FRAME_TYPE_ACK 0 seq)))) ++ le16 (crc []) from rfl]
    rw [readBytes_setBytes_pre _ _ _ _ _ _ (by simp [le16, frameBytes]) (by rfl)]
    exact le16_map_mod _
  · intro crc p cap h
    rw [msgb_push_nak_spec _ _ (by show (0 : Nat) + 10 ≤ 0 + cap; omega)]
    dsimp only [msgb_init]
    rw [show nakBytes crc =
        (le16 SSH_MSG_SYN ++ (frameBytes SSH_FRAME_TYPE_NAK 0 0 ++
          le16 (crc (frameBytes SSH_FRAME_TYPE_NAK 0 0)))) ++ le16 (crc []) from rfl]
    rw [readBytes_setBytes_pre _ _ _ _ _ _ (by simp [le16, frameBytes]) (by rfl)]
    exact le16_map_mod _
  · intro crc p cap seq rqid r h
    rw [msgb_push_cmd_spec _ _ _ _ _
      (by show (0 : Nat) + 18 + r.payload.length ≤ 0 + cap; omega)]
    dsimp only [msgb_init]
    have h1 : readBytes
        (setBytes p 0 (cmdMsgBytes crc seq rqid r)) 8 (8 + r.payload.length) =
        cmdPayloadBytes rqid r := by
      rw [show cmdMsgBytes crc seq rqid r =
          (le16 SSH_MSG_SYN ++
            (frameBytes SSH_FRAME_TYPE_DATA_SEQ (SSH_COMMAND_LEN + r.payload.length) seq ++
              le16 (crc (frameBytes SSH_FRAME_TYPE_DATA_SEQ
                (SSH_COMMAND_LEN + r.payload.length) seq)))) ++
          (cmdPayloadBytes rqid r ++ le16 (crc (cmdPayloadBytes rqid r))) from rfl]
      rw [readBytes_setBytes_mid _ _ _ _ _ _ _ (by simp [le16, frameBytes])
        (by simp [cmdPayloadBytes]; omega)]
      exact cmdPayloadBytes_map_mod rqid r
    refine ⟨h1, ?_⟩
    rw [h1]
    rw [show cmdMsgBytes crc seq rqid r =
        ((le16 SSH_MSG_SYN ++
          (frameBytes SSH_FRAME_TYPE_DATA_SEQ (SSH_COMMAND_LEN + r.payload.length) seq ++
            le16 (crc (frameBytes SSH_FRAME_TYPE_DATA_SEQ
              (SSH_COMMAND_LEN + r.payload.length) seq)))) ++ cmdPayloadBytes rqid r) ++
        le16 (crc (cmdPayloadBytes rqid r)) from rfl]
    rw [readBytes_setBytes_pre _ _ _ _ _ _
      (by simp only [List.length_append, le16_length, frameBytes_length, cmdPayloadBytes,
        List.length_map, List.length_cons, List.length_nil]; omega)
      (by rfl)]
    exact le16_map_mod _

/-- C3 witness: concrete ACK instance. -/
theorem C3_witness :
    readBytes (msgb_push_ack crcSum (msgb_init memZero 0 16) 5).mem 8 2 =
      le16 (crcSum []) :=
  C3_payload_checksum.1 crcSum memZero 16 5 (by norm_num)

/-- C4: whenever `msgb_push_frame` succeeds (header and checksum fit),
the two bytes it appends after the header are the little-endian checksum
over exactly the 4 header bytes it just wrote; in a complete message the
bytes at offset 6 are the checksum of bytes `[2, 6)`. -/
theorem C4_header_checksum :
    (∀ (crc : List Nat → Nat) (m : Msgbuf) (ty len seq : Nat), m.ptr + 6 ≤ m.endp →
        readBytes (msgb_push_frame crc m ty len seq).mem m.ptr 4 = frameBytes ty len seq ∧
        readBytes (msgb_push_frame crc m ty len seq).mem (m.ptr + 4) 2 =
          le16 (crc (readBytes (msgb_push_frame crc m ty len seq).mem m.ptr 4))) ∧
    (∀ (crc : List Nat → Nat) (p : Nat → Nat) (cap seq : Nat), 10 ≤ cap →
        readBytes (msgb_push_ack crc (msgb_init p 0 cap) seq).mem 6 2 =
          le16 (crc (readBytes (msgb_push_ack crc (msgb_init p 0 cap) seq).mem 2 4))) := by
  constructor
  · intro crc m ty len seq h
    rw [msgb_push_frame_spec _ _ _ _ _ h]
    dsimp only
    have h1 : readBytes
        (setBytes m.mem m.ptr
          (frameBytes ty len seq ++ le16 (crc (frameBytes ty len seq)))) m.ptr 4 =
        frameBytes ty len seq := by
      rw [readBytes_setBytes_first _ _ _ _ _ (by rfl)]
      exact frameBytes_map_mod ty len seq
    refine ⟨h1, ?_⟩
    rw [h1]
    rw [readBytes_setBytes_pre _ _ _ _ _ _ (by simp [frameBytes]) (by rfl)]
    exact le16_map_mod _
  · intro crc p cap seq h
    rw [msgb_push_ack_spec _ _ _ (by show (0 : Nat) + 10 ≤ 0 + cap; omega)]
    dsimp only [msgb_init]
    have hin : readBytes (setBytes p 0 (ackBytes crc seq)) 2 4 =
        frameBytes SSH_FRAME_TYPE_ACK 0 seq := by
      rw [show ackBytes crc seq =
          le16 SSH_MSG_SYN ++ (frameBytes SSH_FRAME_TYPE_ACK 0 seq ++
            (le16 (crc (frameBytes SSH_FRAME_TYPE_ACK 0 seq)) ++ le16 (crc []))) from rfl]
      rw [readBytes_setBytes_mid _ _ _ _ _ _ _ (by simp [le16]) (by rfl)]
      exact frameBytes_map_mod _ _ _
    rw [hin]
    rw [show ackBytes crc seq =
        (le16 SSH_MSG_SYN ++ frameBytes SSH_FRAME_TYPE_ACK 0 seq) ++
          (le16 (crc (frameBytes SSH_FRAME_TYPE_ACK 0 seq)) ++ le16 (crc [])) from rfl]
    rw [readBytes_setBytes_mid _ _ _ _ _ _ _ (by simp [le16, frameBytes]) (by rfl)]
    exact le16_map_mod _

/-- C4 witness: concrete frame instance. -/
theorem C4_witness :
    readBytes (msgb_push_frame crcSum (msgb_init memZero 0 8) 1 0 5).mem 0 4 =
      frameBytes 1 0 5 ∧
    readBytes (msgb_push_frame crcSum (msgb_init memZero 0 8) 1 0 5).mem 4 2 =
      le16 (crcSum (readBytes (msgb_push_frame crcSum (msgb_init memZero 0 8) 1 0 5).mem 0 4)) :=
  C4_header_checksum.1 crcSum (msgb_init memZero 0 8) 1 0 5 (by decide)

/-- C5: `msgb_push_cmd` writes the frame length field as
`sizeof(struct ssh_command) + rqst->length` (little-endian), the command
header fields in the fixed source order (with `tid_in = 0` and `rqid`
little-endian), and the application payload verbatim. -/
theorem C5_cmd_layout :
    ∀ (crc : List Nat → Nat) (p : Nat → Nat) (cap seq rqid : Nat) (r : ssam_request),
      18 + r.payload.length ≤ cap →
      r.target_category < 256 → r.target_id < 256 → r.instance_id < 256 →
      r.command_id < 256 → (∀ b ∈ r.payload, b < 256) →
      readBytes (msgb_push_cmd crc (msgb_init p 0 cap) seq rqid r).mem 3 2 =
        le16 (SSH_COMMAND_LEN + r.payload.length) ∧
      readBytes (msgb_push_cmd crc (msgb_init p 0 cap) seq rqid r).mem 8 8 =
        [SSH_PLD_TYPE_CMD, r.target_category, r.target_id, 0, r.instance_id,
          rqid % 256, rqid / 256 % 256, r.command_id] ∧
      readBytes (msgb_push_cmd crc (msgb_init p 0 cap) seq rqid r).mem 16
        r.payload.length = r.payload := by
  intro crc p cap seq rqid r h htc htid hiid hcid hb
  rw [msgb_push_cmd_spec _ _ _ _ _
    (by show (0 : Nat) + 18 + r.payload.length ≤ 0 + cap; omega)]
  dsimp only [msgb_init]
  refine ⟨?_, ?_, ?_⟩
  · rw [show cmdMsgBytes crc seq rqid r =
        (le16 SSH_MSG_SYN ++ [SSH_FRAME_TYPE_DATA_SEQ % 256]) ++
          (le16 (SSH_COMMAND_LEN + r.payload.length) ++
            ([seq % 256] ++
              (le16 (crc (frameBytes SSH_FRAME_TYPE_DATA_SEQ
                (SSH_COMMAND_LEN + r.payload.length) seq)) ++
                (cmdPayloadBytes rqid r ++ le16 (crc (cmdPayloadBytes rqid r)))))) from rfl]
    rw [readBytes_setBytes_mid _ _ _ _ _ _ _ (by simp [le16]) (by rfl)]
    exact le16_map_mod _
  · rw [show cmdMsgBytes crc seq rqid r =
        (le16 SSH_MSG_SYN ++
          (frameBytes SSH_FRAME_TYPE_DATA_SEQ (SSH_COMMAND_LEN + r.payload.length) seq ++
            le16 (crc (frameBytes SSH_FRAME_TYPE_DATA_SEQ
              (SSH_COMMAND_LEN + r.payload.length) seq)))) ++
          (([SSH_PLD_TYPE_CMD, r.target_category, r.target_id, 0, r.instance_id,
              rqid % 256, rqid / 256 % 256, r.command_id].map (fun b => b % 256)) ++
            (r.payload.map (fun b => b % 256) ++
              le16 (crc (cmdPayloadBytes rqid r)))) from rfl]
    rw [readBytes_setBytes_mid _ _ _ _ _ _ _ (by simp [le16, frameBytes]) (by simp)]
    simp [List.map_map, Function.comp, Nat.mod_mod, Nat.mod_eq_of_lt htc,
      Nat.mod_eq_of_lt htid, Nat.mod_eq_of_lt hiid, Nat.mod_eq_of_lt hcid,
      SSH_PLD_TYPE_CMD]
  · rw [show cmdMsgBytes crc seq rqid r =
        (le16 SSH_MSG_SYN ++
          (frameBytes SSH_FRAME_TYPE_DATA_SEQ (SSH_COMMAND_LEN + r.payload.length) seq ++
            (le16 (crc (frameBytes SSH_FRAME_TYPE_DATA_SEQ
              (SSH_COMMAND_LEN + r.payload.length) seq)) ++
              [SSH_PLD_TYPE_CMD % 256, r.target_category % 256, r.target_id % 256, 0 % 256,
                r.instance_id % 256, rqid % 256 % 256, rqid / 256 % 256 % 256,
                r.command_id % 256]))) ++
          (r.payload.map (fun b => b % 256) ++
            le16 (crc (cmdPayloadBytes rqid r))) from rfl]
    rw [readBytes_setBytes_mid _ _ _ _ _ _ _ (by simp [le16, frameBytes]) (by simp)]
    have hid : ∀ b ∈ r.payload, b % 256 % 256 = b := by
      intro b hbm
      rw [Nat.mod_mod]
      exact Nat.mod_eq_of_lt (hb b hbm)
    rw [List.map_map]
    exact (List.map_congr_left hid).trans (List.map_id _)

/-- C5 witness: the spec §8 command scenario. -/
theorem C5_witness :
    readBytes (msgb_push_cmd crcSum (msgb_init memZero 0 32) 1 7
        (ssam_request.mk 2 1 0 9 [222, 173])).mem 3 2 = le16 (SSH_COMMAND_LEN + 2) ∧
    readBytes (msgb_push_cmd crcSum (msgb_init memZero 0 32) 1 7
        (ssam_request.mk 2 1 0 9 [222, 173])).mem 8 8 =
      [SSH_PLD_TYPE_CMD, 2, 1, 0, 0, 7 % 256, 7 / 256 % 256, 9] ∧
    readBytes (msgb_push_cmd crcSum (msgb_init memZero 0 32) 1 7
        (ssam_request.mk 2 1 0 9 [222, 173])).mem 16 2 = [222, 173] :=
  C5_cmd_layout crcSum memZero 32 1 7 (ssam_request.mk 2 1 0 9 [222, 173])
    (by norm_num) (by norm_num) (by norm_num) (by norm_num) (by norm_num) (by decide)

/-- C10: `msgb_push_cmd` is not atomic on capacity failure: when the SYN,
frame header and header checksum fit (`8 ≤ cap`) but the command header
does not (`cap < 16`), the call returns with those 8 bytes — the frame
length field still promising `sizeof(struct ssh_command) + rqst->length`
payload bytes — left in the buffer, and writes nothing else. -/
theorem C10_cmd_not_atomic :
    ∀ (crc : List Nat → Nat) (p : Nat → Nat) (cap seq rqid : Nat) (r : ssam_request),
      8 ≤ cap → cap < 16 →
      (msgb_push_cmd crc (msgb_init p 0 cap) seq rqid r).ptr = 8 ∧
      msgb_bytes_used (msgb_push_cmd crc (msgb_init p 0 cap) seq rqid r) = 8 ∧
      readBytes (msgb_push_cmd crc (msgb_init p 0 cap) seq rqid r).mem 0 8 =
        le16 SSH_MSG_SYN ++
          (frameBytes SSH_FRAME_TYPE_DATA_SEQ (SSH_COMMAND_LEN + r.payload.length) seq ++
            le16 (crc (frameBytes SSH_FRAME_TYPE_DATA_SEQ
              (SSH_COMMAND_LEN + r.payload.length) seq))) ∧
      ∀ j : Nat, 8 ≤ j → (msgb_push_cmd crc (msgb_init p 0 cap) seq rqid r).mem j = p j := by
  intro crc p cap seq rqid r h8 h16
  unfold msgb_push_cmd msgb_push_syn
  rw [msgb_push_u16_spec _ _ (by show (0 : Nat) + 2 ≤ 0 + cap; omega)]
  dsimp only [msgb_init]
  rw [msgb_push_frame_spec _ _ _ _ _ (by show (0 : Nat) + 2 + 6 ≤ 0 + cap; omega)]
  rw [if_pos (by
    show (0 : Nat) + 2 + 6 + SSH_COMMAND_LEN > 0 + cap
    have hc : SSH_COMMAND_LEN = 8 := rfl
    omega)]
  dsimp only
  refine ⟨by norm_num, by simp [msgb_bytes_used], ?_, ?_⟩
  · rw [readBytes_setBytes2 _ _ _ _ _ _ (by simp [le16]) (by simp [le16, frameBytes])]
    simp [List.map_append, le16_map_mod, frameBytes_map_mod]
  · intro j hj
    rw [setBytes_apply_ge _ _ _ _ (by simp [le16, frameBytes]; omega)]
    rw [setBytes_apply_ge _ _ _ _ (by simp [le16]; omega)]

/-- C10 witness: concrete truncated command push at capacity 12. -/
theorem C10_witness :
    (msgb_push_cmd crcSum (msgb_init memZero 0 12) 1 7
        (ssam_request.mk 2 1 0 9 [222, 173])).ptr = 8 ∧
    msgb_bytes_used (msgb_push_cmd crcSum (msgb_init memZero 0 12) 1 7
        (ssam_request.mk 2 1 0 9 [222, 173])) = 8 ∧
    readBytes (msgb_push_cmd crcSum (msgb_init memZero 0 12) 1 7
        (ssam_request.mk 2 1 0 9 [222, 173])).mem 0 8 =
      le16 SSH_MSG_SYN ++
        (frameBytes SSH_FRAME_TYPE_DATA_SEQ (SSH_COMMAND_LEN + 2) 1 ++
          le16 (crcSum (frameBytes SSH_FRAME_TYPE_DATA_SEQ (SSH_COMMAND_LEN + 2) 1))) ∧
    ∀ j : Nat, 8 ≤ j → (msgb_push_cmd crcSum (msgb_init memZero 0 12) 1 7
        (ssam_request.mk 2 1 0 9 [222, 173])).mem j = memZero j :=
  C10_cmd_not_atomic crcSum memZero 12 1 7 (ssam_request.mk 2 1 0 9 [222, 173])
    (by norm_num) (by norm_num)

/-- C2 counterexample: `msgb_push_buf` (the C `append_bytes`) violates
`origin ≤ cursor ≤ limit`: pushing 6 bytes into a freshly bound 4-byte
buffer advances the cursor past the limit. -/
theorem C2_counterexample :
    ¬ ((msgb_push_buf (msgb_init memZero 0 4) [1, 2, 3, 4, 5, 6]).ptr ≤
        (msgb_push_buf (msgb_init memZero 0 4) [1, 2, 3, 4, 5, 6]).endp) := by
  decide

/-- C2 (amended): binding establishes `origin ≤ cursor ≤ limit` and
`msgb_bytes_used` never exceeds capacity; `msgb_push_u16`,
`msgb_push_crc`, `msgb_push_frame`, `msgb_push_ack` and `msgb_push_nak`
preserve the invariant and write no byte outside `[origin, limit)` for
every state and argument; `msgb_push_buf` and `msgb_push_cmd` do so only
when the data fits in the remaining capacity. -/
theorem C2_amended_invariant :
    (∀ (p : Nat → Nat) (base cap : Nat),
        (msgb_init p base cap).begin ≤ (msgb_init p base cap).ptr ∧
        (msgb_init p base cap).ptr ≤ (msgb_init p base cap).endp) ∧
    (∀ m : Msgbuf, m.begin ≤ m.ptr → m.ptr ≤ m.endp →
        msgb_bytes_used m ≤ m.endp - m.begin) ∧
    (∀ (m : Msgbuf) (v : Nat), m.begin ≤ m.ptr → m.ptr ≤ m.endp →
        ((msgb_push_u16 m v).begin ≤ (msgb_push_u16 m v).ptr ∧
          (msgb_push_u16 m v).ptr ≤ (msgb_push_u16 m v).endp) ∧
        ∀ j : Nat, j < m.begin ∨ m.endp ≤ j → (msgb_push_u16 m v).mem j = m.mem j) ∧
    (∀ (crc : List Nat → Nat) (m : Msgbuf) (off len : Nat),
        m.begin ≤ m.ptr → m.ptr ≤ m.endp →
        ((msgb_push_crc crc m off len).begin ≤ (msgb_push_crc crc m off len).ptr ∧
          (msgb_push_crc crc m off len).ptr ≤ (msgb_push_crc crc m off len).endp) ∧
        ∀ j : Nat, j < m.begin ∨ m.endp ≤ j →
          (msgb_push_crc crc m off len).mem j = m.mem j) ∧
    (∀ (crc : List Nat → Nat) (m : Msgbuf) (ty len seq : Nat),
        m.begin ≤ m.ptr → m.ptr ≤ m.endp →
        ((msgb_push_frame crc m ty len seq).begin ≤ (msgb_push_frame crc m ty len seq).ptr ∧
          (msgb_push_frame crc m ty len seq).ptr ≤ (msgb_push_frame crc m ty len seq).endp) ∧
        ∀ j : Nat, j < m.begin ∨ m.endp ≤ j →
          (msgb_push_frame crc m ty len seq).mem j = m.mem j) ∧
    (∀ (crc : List Nat → Nat) (m : Msgbuf) (seq : Nat),
        m.begin ≤ m.ptr → m.ptr ≤ m.endp →
        ((msgb_push_ack crc m seq).begin ≤ (msgb_push_ack crc m seq).ptr ∧
          (msgb_push_ack crc m seq).ptr ≤ (msgb_push_ack crc m seq).endp) ∧
        ∀ j : Nat, j < m.begin ∨ m.endp ≤ j → (msgb_push_ack crc m seq).mem j = m.mem j) ∧
    (∀ (crc : List Nat → Nat) (m : Msgbuf),
        m.begin ≤ m.ptr → m.ptr ≤ m.endp →
        ((msgb_push_nak crc m).begin ≤ (msgb_push_nak crc m).ptr ∧
          (msgb_push_nak crc m).ptr ≤ (msgb_push_nak crc m).endp) ∧
        ∀ j : Nat, j < m.begin ∨ m.endp ≤ j → (msgb_push_nak crc m).mem j = m.mem j) ∧
    (∀ (m : Msgbuf) (buf : List Nat), m.begin ≤ m.ptr → m.ptr + buf.length ≤ m.endp →
        ((msgb_push_buf m buf).begin ≤ (msgb_push_buf m buf).ptr ∧
          (msgb_push_buf m buf).ptr ≤ (msgb_push_buf m buf).endp) ∧
        ∀ j : Nat, j < m.begin ∨ m.endp ≤ j → (msgb_push_buf m buf).mem j = m.mem j) ∧
    (∀ (crc : List Nat → Nat) (m : Msgbuf) (seq rqid : Nat) (r : ssam_request),
        m.begin ≤ m.ptr → m.ptr + 18 + r.payload.length ≤ m.endp →
        ((msgb_push_cmd crc m seq rqid r).begin ≤ (msgb_push_cmd crc m seq rqid r).ptr ∧
          (msgb_push_cmd crc m seq rqid r).ptr ≤ (msgb_push_cmd crc m seq rqid r).endp) ∧
        ∀ j : Nat, j < m.begin ∨ m.endp ≤ j →
          (msgb_push_cmd crc m seq rqid r).mem j = m.mem j) := by
  refine ⟨?_, ?_, ?_, ?_, ?_, ?_, ?_, ?_, ?_⟩
  · intro p base cap
    exact ⟨Nat.le_refl _, by show base ≤ base + cap; omega⟩
  · intro m h1 h2
    unfold msgb_bytes_used
    omega
  · intro m v h1 h2
    exact ⟨msgb_push_u16_inv m v h1 h2, fun j hj => msgb_push_u16_outside m v j h1 hj⟩
  · intro crc m off len h1 h2
    exact ⟨msgb_push_crc_inv crc m off len h1 h2,
      fun j hj => msgb_push_crc_outside crc m off len j h1 hj⟩
  · intro crc m ty len seq h1 h2
    exact ⟨msgb_push_frame_inv crc m ty len seq h1 h2,
      fun j hj => msgb_push_frame_outside crc m ty len seq j h1 hj⟩
  · intro crc m seq h1 h2
    exact ⟨msgb_push_ack_inv crc m seq h1 h2,
      fun j hj => msgb_push_ack_outside crc m seq j h1 h2 hj⟩
  · intro crc m h1 h2
    exact ⟨msgb_push_nak_inv crc m h1 h2,
      fun j hj => msgb_push_nak_outside crc m j h1 h2 hj⟩
  · intro m buf h1 h2
    exact ⟨msgb_push_buf_inv m buf h1 h2,
      fun j hj => msgb_push_buf_outside m buf j h1 h2 hj⟩
  · intro crc m seq rqid r h1 h2
    exact ⟨msgb_push_cmd_inv crc m seq rqid r h1 h2,
      fun j hj => msgb_push_cmd_outside crc m seq rqid r j h1 h2 hj⟩

/-- C2 witness: invariant preservation at a concrete push. -/
theorem C2_witness :
    ((msgb_push_u16 (msgb_init memZero 0 4) 513).begin ≤
        (msgb_push_u16 (msgb_init memZero 0 4) 513).ptr ∧
      (msgb_push_u16 (msgb_init memZero 0 4) 513).ptr ≤
        (msgb_push_u16 (msgb_init memZero 0 4) 513).endp) ∧
    ∀ j : Nat, j < (msgb_init memZero 0 4).begin ∨ (msgb_init memZero 0 4).endp ≤ j →
      (msgb_push_u16 (msgb_init memZero 0 4) 513).mem j = (msgb_init memZero 0 4).mem j :=
  C2_amended_invariant.2.2.1 (msgb_init memZero 0 4) 513 (by decide) (by decide)
